import Mathlib

/-!
Verification of the data-transformation pipeline of the mangaroa-analysis
repository (`src/components/CanopyCoverVisualizer.tsx` and
`src/components/MultiDatasetVisualizer.tsx`).

Shallow embedding conventions:
* Rows are modelled after CSV parsing and numeric coercion (the spec's stated
  non-goal boundary): coordinates are rationals, integer-band fields are
  integers.  JavaScript floating-point arithmetic is modelled exactly over ℚ
  (and ℝ where the source calls `Math.sqrt`).
* The `x` / `y` NaN filters of the loaders are vacuous here because the model
  starts from already-numeric coordinates; the `has_data` filters are kept.
* JavaScript's `v || 0` on a possibly-missing number is `jsOr0` below.
-/

namespace MangaroaAnalysis

/-- Metric keys of the Mangaroa multi-metric time series
(`METRICS` in CanopyCoverVisualizer.tsx). -/
inductive Metric
  | canopy_cover
  | tree_height
  | living_biomass
  | carbon_stock
  | diversity_index
deriving DecidableEq

/-- One processed Mangaroa record (`processMangaroaData`, CanopyCoverVisualizer.tsx
lines 93-106): coordinates, year and the five numeric metrics.  The string `id`
and the redundant `coordinates` pair are omitted (never used by derivations). -/
structure MangaroaRecord where
  pixel_id : ℕ
  x : ℚ
  y : ℚ
  year : ℤ
  canopy_cover : ℚ
  tree_height : ℚ
  living_biomass : ℚ
  carbon_stock : ℚ
  diversity_index : ℚ
deriving DecidableEq

/-- Field access `d[metricKey]` for a selected metric. -/
def metricValue : Metric → MangaroaRecord → ℚ
  | .canopy_cover, r => r.canopy_cover
  | .tree_height, r => r.tree_height
  | .living_biomass, r => r.living_biomass
  | .carbon_stock, r => r.carbon_stock
  | .diversity_index, r => r.diversity_index

/-- One raw GLAD forest-change row after parsing
(`x, y, datamask, gain, lossyear, treecover2000`). -/
structure GLADRow where
  x : ℚ
  y : ℚ
  datamask : ℤ
  gain : ℤ
  lossyear : ℤ
  treecover2000 : ℤ
deriving DecidableEq

/-- Normalized GLAD record (`processGLADData`, CanopyCoverVisualizer.tsx lines
150-164, identical in MultiDatasetVisualizer.tsx lines 167-181). -/
structure GLADRecord where
  pixel_id : ℕ
  x : ℚ
  y : ℚ
  datamask : ℤ
  gain : ℤ
  lossyear : ℤ
  treecover2000 : ℤ
  has_data : Bool
  has_forest_gain : Bool
  forest_loss_year : Option ℤ
  baseline_tree_cover : ℤ
deriving DecidableEq

/-- The per-row mapping of `processGLADData`: `pixel_id` is the row's position
in the parsed input, `has_data` is `datamask === 1`, `has_forest_gain` is
`gain === 1`, and `forest_loss_year` is `2000 + lossyear` when `lossyear > 0`,
else `null` (modelled as `none`). -/
def normGLADRow (idx : ℕ) (row : GLADRow) : GLADRecord where
  pixel_id := idx
  x := row.x
  y := row.y
  datamask := row.datamask
  gain := row.gain
  lossyear := row.lossyear
  treecover2000 := row.treecover2000
  has_data := row.datamask = 1
  has_forest_gain := row.gain = 1
  forest_loss_year := if row.lossyear > 0 then some (2000 + row.lossyear) else none
  baseline_tree_cover := row.treecover2000

/-- `processGLADData`: map every parsed row (index-tagged), then keep rows with
`has_data` (the coordinate NaN checks are vacuous over ℚ). -/
def processGLADData (rows : List GLADRow) : List GLADRecord :=
  (rows.enum.map fun p => normGLADRow p.1 p.2).filter fun r => r.has_data

/-- One raw IO-9-class row after parsing (`x, y, class_2017 .. class_2023`). -/
structure IOClassRow where
  x : ℚ
  y : ℚ
  class_2017 : ℤ
  class_2018 : ℤ
  class_2019 : ℤ
  class_2020 : ℤ
  class_2021 : ℤ
  class_2022 : ℤ
  class_2023 : ℤ
deriving DecidableEq

/-- Normalized IO-9-class base record, shared by both visualizers
(CanopyCoverVisualizer.tsx lines 191-206 and the `baseData` stage of
MultiDatasetVisualizer.tsx lines 1014-1027): `has_data` is
`class_2017 !== 255`, `dominant_class` is the 2017 class. -/
structure IOClassRecord where
  pixel_id : ℕ
  x : ℚ
  y : ℚ
  class_2017 : ℤ
  class_2018 : ℤ
  class_2019 : ℤ
  class_2020 : ℤ
  class_2021 : ℤ
  class_2022 : ℤ
  class_2023 : ℤ
  has_data : Bool
  dominant_class : ℤ
deriving DecidableEq

/-- The per-row base mapping used by both IO-class loaders. -/
def ioBaseRecord (idx : ℕ) (row : IOClassRow) : IOClassRecord where
  pixel_id := idx
  x := row.x
  y := row.y
  class_2017 := row.class_2017
  class_2018 := row.class_2018
  class_2019 := row.class_2019
  class_2020 := row.class_2020
  class_2021 := row.class_2021
  class_2022 := row.class_2022
  class_2023 := row.class_2023
  has_data := row.class_2017 ≠ 255
  dominant_class := row.class_2017

/-- CanopyCoverVisualizer.tsx `processIOClassData` (lines 191-209): one output
record per input row, no per-year expansion. -/
def canopyProcessIOClassData (rows : List IOClassRow) : List IOClassRecord :=
  (rows.enum.map fun p => ioBaseRecord p.1 p.2).filter fun r => r.has_data

/-- One expanded per-year IO-class record (MultiDatasetVisualizer.tsx lines
1045-1064). -/
structure IOClassYearRecord where
  pixel_id : ℕ
  x : ℚ
  y : ℚ
  year : ℤ
  land_class : ℤ
  class_2017 : ℤ
  class_2018 : ℤ
  class_2019 : ℤ
  class_2020 : ℤ
  class_2021 : ℤ
  class_2022 : ℤ
  class_2023 : ℤ
  has_data : Bool
  dominant_class : ℤ
  has_temporal_change : Bool
deriving DecidableEq

/-- The declared classification years, `[2017, ..., 2023]`. -/
def ioYears : List ℤ := [2017, 2018, 2019, 2020, 2021, 2022, 2023]

/-- Dynamic field lookup `pixel[`class_${year}`]` for the declared years. -/
def classOfYear (r : IOClassRecord) (y : ℤ) : ℤ :=
  if y = 2017 then r.class_2017
  else if y = 2018 then r.class_2018
  else if y = 2019 then r.class_2019
  else if y = 2020 then r.class_2020
  else if y = 2021 then r.class_2021
  else if y = 2022 then r.class_2022
  else r.class_2023

/-- `classValues`: the class of each declared year, in year order. -/
def classValues (r : IOClassRecord) : List ℤ := ioYears.map (classOfYear r)

/-- `new Set(classValues).size > 1`: more than one distinct class across the
declared years (`List.dedup` keeps exactly the distinct members). -/
def hasTemporalChange (r : IOClassRecord) : Bool :=
  1 < (classValues r).dedup.length

/-- The inner `years.forEach` push of MultiDatasetVisualizer.tsx lines
1042-1065: one record per declared year, sharing the pixel's id, class map,
dominant class and temporal-change flag. -/
def expandIOPixel (r : IOClassRecord) : List IOClassYearRecord :=
  ioYears.map fun y =>
    { pixel_id := r.pixel_id
      x := r.x
      y := r.y
      year := y
      land_class := classOfYear r y
      class_2017 := r.class_2017
      class_2018 := r.class_2018
      class_2019 := r.class_2019
      class_2020 := r.class_2020
      class_2021 := r.class_2021
      class_2022 := r.class_2022
      class_2023 := r.class_2023
      has_data := r.has_data
      dominant_class := r.dominant_class
      has_temporal_change := hasTemporalChange r }

/-- MultiDatasetVisualizer.tsx `processIOClassData` (lines 1014-1071): the
filtered base records, each expanded into one record per declared year. -/
def multiProcessIOClassData (rows : List IOClassRow) : List IOClassYearRecord :=
  ((rows.enum.map fun p => ioBaseRecord p.1 p.2).filter fun r => r.has_data).flatMap
    expandIOPixel

/-- One raw JRC forest-type row after parsing (`x, y, forest_type_2020`). -/
structure JRCTypeRow where
  x : ℚ
  y : ℚ
  forest_type_2020 : ℤ
deriving DecidableEq

/-- Normalized JRC forest-type record (both visualizers). -/
structure JRCRecord where
  pixel_id : ℕ
  x : ℚ
  y : ℚ
  forest_type_2020 : ℤ
  has_data : Bool
  is_forest : Bool
deriving DecidableEq

/-- CanopyCoverVisualizer.tsx `processJRCTypeData` row mapping (lines 269-278):
`has_data` is `value !== 255`, `is_forest` is `value === 0`. -/
def canopyNormJRCTypeRow (idx : ℕ) (row : JRCTypeRow) : JRCRecord where
  pixel_id := idx
  x := row.x
  y := row.y
  forest_type_2020 := row.forest_type_2020
  has_data := row.forest_type_2020 ≠ 255
  is_forest := row.forest_type_2020 = 0

/-- MultiDatasetVisualizer.tsx `processJRCTypeData` row mapping (lines
1126-1135): `has_data` is `value !== 255`, `is_forest` is `value === 1`. -/
def multiNormJRCTypeRow (idx : ℕ) (row : JRCTypeRow) : JRCRecord where
  pixel_id := idx
  x := row.x
  y := row.y
  forest_type_2020 := row.forest_type_2020
  has_data := row.forest_type_2020 ≠ 255
  is_forest := row.forest_type_2020 = 1

/-! ## Pixel index (`processMangaroaData`, CanopyCoverVisualizer.tsx lines 112-122)

The loader walks the processed records once, keyed by
`x.toFixed(6) + "_" + y.toFixed(6)`; an unseen key is given the next counter
value, and the record's `pixel_id` becomes the key's mapped value. -/

/-- Decimal rounding to 6 places, the numeric content of `toFixed(6)` (the two
coordinates are kept as a pair rather than a concatenated string). -/
def roundTo6 (q : ℚ) : ℤ := round (q * 1000000)

/-- The coordinate key of `processMangaroaData`. -/
def coordKey (x y : ℚ) : ℤ × ℤ := (roundTo6 x, roundTo6 y)

/-- The key of one record. -/
def recKey (r : MangaroaRecord) : ℤ × ℤ := coordKey r.x r.y

/-- Position of a key in a key list; the counter value the loader's `Map`
associates to the key once every earlier key is inserted first. -/
def idxOf (k : ℤ × ℤ) : List (ℤ × ℤ) → ℕ
  | [] => 0
  | k' :: ks => if k' = k then 0 else idxOf k ks + 1

/-- The loader's `forEach` with the `Map` represented by the insertion-ordered
list of its keys: an unseen key is appended (counter = its position), and the
record receives its key's position. -/
def assignLoop : List MangaroaRecord → List (ℤ × ℤ) → List MangaroaRecord
  | [], _ => []
  | r :: rest, seen =>
      let seen' := if recKey r ∈ seen then seen else seen ++ [recKey r]
      { r with pixel_id := idxOf (recKey r) seen' } :: assignLoop rest seen'

/-- `processMangaroaData`'s pixel-id pass, started from the empty map. -/
def assignPixelIds (rs : List MangaroaRecord) : List MangaroaRecord :=
  assignLoop rs []

/-- The insertion-ordered key set after the whole walk. -/
def collectKeys : List MangaroaRecord → List (ℤ × ℤ) → List (ℤ × ℤ)
  | [], seen => seen
  | r :: rest, seen =>
      collectKeys rest (if recKey r ∈ seen then seen else seen ++ [recKey r])

/-- The id the load assigns to a rounded coordinate: its first-sighting
position among the record set's keys. -/
def pixelIdOfKey (rs : List MangaroaRecord) (k : ℤ × ℤ) : ℕ :=
  idxOf k (collectKeys rs [])

lemma idxOf_append_of_mem (k : ℤ × ℤ) (l t : List (ℤ × ℤ)) (h : k ∈ l) :
    idxOf k (l ++ t) = idxOf k l := by
  induction l with
  | nil => cases h
  | cons a l ih =>
      by_cases hak : a = k
      · simp [idxOf, hak]
      · rcases List.mem_cons.mp h with h1 | h2
        · exact absurd h1.symm hak
        · simp [idxOf, hak, ih h2]

lemma collectKeys_extends (rest : List MangaroaRecord) :
    ∀ seen, ∃ t, collectKeys rest seen = seen ++ t := by
  induction rest with
  | nil => exact fun seen => ⟨[], by simp [collectKeys]⟩
  | cons r rest ih =>
      intro seen
      by_cases hmem : recKey r ∈ seen
      · rcases ih seen with ⟨t, ht⟩
        exact ⟨t, by simpa [collectKeys, hmem] using ht⟩
      · rcases ih (seen ++ [recKey r]) with ⟨t, ht⟩
        exact ⟨[recKey r] ++ t, by simp [collectKeys, hmem, ht]⟩

lemma idxOf_collectKeys (rest : List MangaroaRecord) (seen : List (ℤ × ℤ))
    (k : ℤ × ℤ) (h : k ∈ seen) :
    idxOf k (collectKeys rest seen) = idxOf k seen := by
  rcases collectKeys_extends rest seen with ⟨t, ht⟩
  rw [ht, idxOf_append_of_mem k seen t h]

lemma assignLoop_eq (rest : List MangaroaRecord) :
    ∀ seen, assignLoop rest seen =
      rest.map fun r => { r with pixel_id := idxOf (recKey r) (collectKeys rest seen) } := by
  induction rest with
  | nil => intro seen; simp [assignLoop]
  | cons r rest ih =>
      intro seen
      set s1 := if recKey r ∈ seen then seen else seen ++ [recKey r] with hs1
      have hmem : recKey r ∈ s1 := by
        by_cases hm : recKey r ∈ seen <;> simp [hs1, hm]
      have hstep : assignLoop (r :: rest) seen =
          { r with pixel_id := idxOf (recKey r) s1 } :: assignLoop rest s1 := rfl
      have hck : collectKeys (r :: rest) seen = collectKeys rest s1 := rfl
      rw [hstep, ih s1, List.map_cons, hck, idxOf_collectKeys rest s1 (recKey r) hmem]

/-! ## View Derivation Engine (`processVisualizationData`,
CanopyCoverVisualizer.tsx lines 780-868) -/

/-- JavaScript `v || 0` applied to a possibly-missing number
(`undefined || 0` is `0`; `0 || 0` is `0`; other numbers pass through). -/
def jsOr0 : Option ℚ → ℚ
  | none => 0
  | some v => if v = 0 then 0 else v

/-- Output entry of the `change_from_baseline` branch: the spread of the
current record plus `change_value` and `baseline_value` (lines 802-806). -/
structure ChangeEntry where
  base : MangaroaRecord
  change_value : ℚ
  baseline_value : ℚ
deriving DecidableEq

/-- The `change_from_baseline` branch for the Mangaroa dataset (lines
794-807): filter the 2013 records and the selected-year records, then map
every selected-year record to an entry whose baseline is looked up by
`pixel_id` (first match) and zero-filled through `|| 0` when absent. -/
def changeFromBaseline (m : Metric) (currentYear : ℤ) (rs : List MangaroaRecord) :
    List ChangeEntry :=
  let baseline2013 := rs.filter fun d => d.year = 2013
  let currentYearData := rs.filter fun d => d.year = currentYear
  currentYearData.map fun current =>
    let baseline := baseline2013.find? fun b => b.pixel_id = current.pixel_id
    { base := current
      change_value := metricValue m current - jsOr0 (baseline.map (metricValue m))
      baseline_value := jsOr0 (baseline.map (metricValue m)) }

/-- Trend direction labels (lines 853). -/
inductive TrendDirection
  | increasing
  | decreasing
  | stable
deriving DecidableEq

/-- One pixel's accumulated trend group and computed trend (interface
`PixelTrend`; the dynamic `result[selectedMetric]` copy of `avg_value` is
omitted). -/
structure PixelTrend where
  pixel_id : ℕ
  x : ℚ
  y : ℚ
  years : List ℤ
  values : List ℚ
  trend_slope : ℚ
  avg_value : ℚ
  trend_direction : TrendDirection
deriving DecidableEq

/-- One step of the grouping `forEach` (lines 817-834): an existing group for
the record's `pixel_id` gets the year and metric value pushed; otherwise a new
group is appended holding just them. -/
def addRecord (m : Metric) (gs : List PixelTrend) (d : MangaroaRecord) : List PixelTrend :=
  if gs.any fun g => g.pixel_id = d.pixel_id then
    gs.map fun g =>
      if g.pixel_id = d.pixel_id then
        { g with years := g.years ++ [d.year], values := g.values ++ [metricValue m d] }
      else g
  else
    gs ++ [{ pixel_id := d.pixel_id, x := d.x, y := d.y,
             years := [d.year], values := [metricValue m d],
             trend_slope := 0, avg_value := 0, trend_direction := .stable }]

/-- Grouping of all records by `pixel_id`.  The source stores groups in an
object keyed by the numeric `pixel_id`; only the collection of groups matters
to the claims, so the object is modelled as a list in first-encounter order. -/
def pixelGroups (m : Metric) (rs : List MangaroaRecord) : List PixelTrend :=
  rs.foldl (addRecord m) []

/-- The ordinary-least-squares slope of lines 841-846:
`(n·Σxy − Σx·Σy) / (n·Σx² − (Σx)²)` over the group's (year, value) pairs
(the `reduce` sums written as list sums).  Division is ℚ-total (`q / 0 = 0`);
the source reaches a zero denominator only for a group whose years are all
equal, which no claim exercises. -/
def olsSlope (years : List ℤ) (values : List ℚ) : ℚ :=
  let n : ℚ := years.length
  let sumX : ℚ := (years.map fun y => (y : ℚ)).sum
  let sumY : ℚ := values.sum
  let sumXY : ℚ := (List.zipWith (fun (y : ℤ) (v : ℚ) => (y : ℚ) * v) years values).sum
  let sumXX : ℚ := (years.map fun y => (y : ℚ) * (y : ℚ)).sum
  (n * sumXY - sumX * sumY) / (n * sumXX - sumX * sumX)

/-- The per-group body of lines 836-857: groups with fewer than 2 points give
`null`; otherwise the OLS slope, the mean value, and the threshold
classification (`> 0.5` increasing, `< -0.5` decreasing, else stable). -/
def trendOfGroup (g : PixelTrend) : Option PixelTrend :=
  if g.years.length < 2 then none
  else
    let slope := olsSlope g.years g.values
    let avgValue := g.values.sum / (g.years.length : ℚ)
    some { g with
      trend_slope := slope
      avg_value := avgValue
      trend_direction :=
        if slope > 1/2 then .increasing
        else if slope < -(1/2) then .decreasing
        else .stable }

/-- The `trend_analysis` branch for the Mangaroa dataset (lines 812-857):
group, compute per group, drop the `null`s. -/
def trendAnalysis (m : Metric) (rs : List MangaroaRecord) : List PixelTrend :=
  (pixelGroups m rs).filterMap trendOfGroup

/-- Dataset selector (`DatasetKey`). -/
inductive DatasetKey
  | mangaroa
  | glad
  | io_class
  | jrc_cover
  | jrc_type
deriving DecidableEq

/-- Visualization mode selector (`VisualizationMode`); the `switch` has no
other reachable case. -/
inductive VisualizationMode
  | current_year
  | change_from_baseline
  | trend_analysis
deriving DecidableEq

/-- A point of the heterogeneous `canopyData` array or of the derived output
(`DataPoint | PixelTrend` downstream). -/
inductive DataPoint
  | mang : MangaroaRecord → DataPoint
  | gladPt : GLADRecord → DataPoint
  | ioPt : IOClassRecord → DataPoint
  | jrcCoverPt : JRCRecord → DataPoint
  | jrcTypePt : JRCRecord → DataPoint
  | changePt : ChangeEntry → DataPoint
  | trendPt : PixelTrend → DataPoint
deriving DecidableEq

/-- JavaScript `'year' in d`: Mangaroa records and change entries (spreads of
Mangaroa records) carry a `year` field; the other shapes do not. -/
def hasYearField : DataPoint → Bool
  | .mang _ => true
  | .changePt _ => true
  | _ => false

/-- The `year` field where it exists (unused when `hasYearField` is false). -/
def yearField : DataPoint → ℤ
  | .mang r => r.year
  | .changePt e => e.base.year
  | _ => 0

/-- The cast `canopyData as MangaroaDataPoint[]` on a well-typed Mangaroa
load: the Mangaroa records of the array. -/
def mangRecordsOf (data : List DataPoint) : List MangaroaRecord :=
  data.filterMap fun d => match d with
    | .mang r => some r
    | _ => none

/-- `processVisualizationData` (lines 780-868): empty data gives `[]`; the
Mangaroa dataset is filtered or derived per mode; every other dataset is
returned unchanged by all three branches (`return canopyData`). -/
def processVisualizationData (ds : DatasetKey) (mode : VisualizationMode)
    (m : Metric) (currentYear : ℤ) (canopyData : List DataPoint) : List DataPoint :=
  if canopyData.isEmpty then []
  else
    match mode with
    | .current_year =>
        if ds = .mangaroa then
          canopyData.filter fun d => hasYearField d && yearField d = currentYear
        else canopyData
    | .change_from_baseline =>
        if ds = .mangaroa then
          (changeFromBaseline m currentYear (mangRecordsOf canopyData)).map .changePt
        else canopyData
    | .trend_analysis =>
        if ds = .mangaroa then
          (trendAnalysis m (mangRecordsOf canopyData)).map .trendPt
        else canopyData

/-! ## Statistics: Pearson correlation (`calculateCorrelation`,
CanopyCoverVisualizer.tsx lines 1223-1237) -/

/-- `data.reduce((sum, point) => sum + point.x, 0)`. -/
def sumFst (d : List (ℚ × ℚ)) : ℚ := d.foldl (fun s p => s + p.1) 0

/-- `data.reduce((sum, point) => sum + point.y, 0)`. -/
def sumSnd (d : List (ℚ × ℚ)) : ℚ := d.foldl (fun s p => s + p.2) 0

/-- `data.reduce((sum, point) => sum + point.x * point.y, 0)`. -/
def sumProd (d : List (ℚ × ℚ)) : ℚ := d.foldl (fun s p => s + p.1 * p.2) 0

/-- `data.reduce((sum, point) => sum + point.x * point.x, 0)`. -/
def sumFstSq (d : List (ℚ × ℚ)) : ℚ := d.foldl (fun s p => s + p.1 * p.1) 0

/-- `data.reduce((sum, point) => sum + point.y * point.y, 0)`. -/
def sumSndSq (d : List (ℚ × ℚ)) : ℚ := d.foldl (fun s p => s + p.2 * p.2) 0

/-- `numerator = n * sumXY - sumX * sumY` (line 1233). -/
def corrNum (d : List (ℚ × ℚ)) : ℚ :=
  (d.length : ℚ) * sumProd d - sumFst d * sumSnd d

/-- The radicand of line 1234:
`(n * sumX2 - sumX * sumX) * (n * sumY2 - sumY * sumY)`. -/
def corrDenSq (d : List (ℚ × ℚ)) : ℚ :=
  ((d.length : ℚ) * sumFstSq d - sumFst d * sumFst d) *
    ((d.length : ℚ) * sumSndSq d - sumSnd d * sumSnd d)

open Classical in
/-- `calculateCorrelation` (lines 1223-1237): `0` for fewer than 2 points;
otherwise `numerator / Math.sqrt(radicand)`, with `0` returned when that
square-root denominator compares equal to `0`. -/
noncomputable def calculateCorrelation (d : List (ℚ × ℚ)) : ℝ :=
  if d.length < 2 then 0
  else if Real.sqrt ((corrDenSq d : ℚ) : ℝ) = 0 then 0
  else ((corrNum d : ℚ) : ℝ) / Real.sqrt ((corrDenSq d : ℚ) : ℝ)

lemma foldl_add_map (f : (ℚ × ℚ) → ℚ) (l : List (ℚ × ℚ)) :
    ∀ a : ℚ, l.foldl (fun s p => s + f p) a = a + (l.map f).sum := by
  induction l with
  | nil => intro a; simp
  | cons p l ih =>
      intro a
      simp only [List.foldl_cons, List.map_cons, List.sum_cons, ih (a + f p)]
      ring

lemma sumFst_eq (d : List (ℚ × ℚ)) : sumFst d = (d.map fun p => p.1).sum := by
  simpa using foldl_add_map (fun p => p.1) d 0

lemma sumSnd_eq (d : List (ℚ × ℚ)) : sumSnd d = (d.map fun p => p.2).sum := by
  simpa using foldl_add_map (fun p => p.2) d 0

lemma sumProd_eq (d : List (ℚ × ℚ)) : sumProd d = (d.map fun p => p.1 * p.2).sum := by
  simpa using foldl_add_map (fun p => p.1 * p.2) d 0

lemma sumFstSq_eq (d : List (ℚ × ℚ)) : sumFstSq d = (d.map fun p => p.1 * p.1).sum := by
  simpa using foldl_add_map (fun p => p.1 * p.1) d 0

lemma sumSndSq_eq (d : List (ℚ × ℚ)) : sumSndSq d = (d.map fun p => p.2 * p.2).sum := by
  simpa using foldl_add_map (fun p => p.2 * p.2) d 0

/-- Discrete Cauchy-Schwarz over a list of pairs, by induction. -/
lemma list_cauchySchwarz (l : List (ℚ × ℚ)) :
    ((l.map fun p => p.1 * p.2).sum) ^ 2 ≤
      ((l.map fun p => p.1 * p.1).sum) * ((l.map fun p => p.2 * p.2).sum) := by
  induction l with
  | nil => simp
  | cons p l ih =>
      have hA : 0 ≤ (l.map fun p => p.1 * p.1).sum :=
        List.sum_nonneg (by
          intro a ha
          rcases List.mem_map.mp ha with ⟨q, _, rfl⟩
          exact mul_self_nonneg q.1)
      have hB : 0 ≤ (l.map fun p => p.2 * p.2).sum :=
        List.sum_nonneg (by
          intro a ha
          rcases List.mem_map.mp ha with ⟨q, _, rfl⟩
          exact mul_self_nonneg q.2)
      have ihd : 0 ≤ (l.map fun p => p.1 * p.1).sum * (l.map fun p => p.2 * p.2).sum -
          ((l.map fun p => p.1 * p.2).sum) ^ 2 := sub_nonneg.mpr ih
      simp only [List.map_cons, List.sum_cons]
      rcases eq_or_lt_of_le hB with hB0 | hBpos
      · have hS0 : (l.map fun p => p.1 * p.2).sum = 0 := by
          have := ihd
          nlinarith [sq_nonneg ((l.map fun p => p.1 * p.2).sum)]
        rw [hS0, ← hB0]
        nlinarith [hA, sq_nonneg p.2, sq_nonneg p.1]
      · nlinarith [ihd, hA, hB,
          sq_nonneg (p.1 * (l.map fun p => p.2 * p.2).sum - p.2 * (l.map fun p => p.1 * p.2).sum),
          mul_nonneg (sq_nonneg p.2) ihd, mul_nonneg hB ihd, hBpos]

/-- Expansion of `Σ (a·x − b)(c·y − e)` over a pair list. -/
lemma sum_map_shift_mul (a b c e : ℚ) (l : List (ℚ × ℚ))  :
    (l.map fun p => (a * p.1 - b) * (c * p.2 - e)).sum =
      a * c * (l.map fun p => p.1 * p.2).sum - a * e * (l.map fun p => p.1).sum
        - b * c * (l.map fun p => p.2).sum + (l.length : ℚ) * (b * e) := by
  induction l with
  | nil => simp
  | cons p l ih =>
      simp only [List.map_cons, List.sum_cons, List.length_cons, ih]
      push_cast
      ring

/-- Expansion of `Σ (a·x − b)²` over a pair list (first component). -/
lemma sum_map_shift_sq_fst (a b : ℚ) (l : List (ℚ × ℚ)) :
    (l.map fun p => (a * p.1 - b) * (a * p.1 - b)).sum =
      a * a * (l.map fun p => p.1 * p.1).sum - 2 * a * b * (l.map fun p => p.1).sum
        + (l.length : ℚ) * (b * b) := by
  induction l with
  | nil => simp
  | cons p l ih =>
      simp only [List.map_cons, List.sum_cons, List.length_cons, ih]
      push_cast
      ring

/-- Expansion of `Σ (a·y − b)²` over a pair list (second component). -/
lemma sum_map_shift_sq_snd (a b : ℚ) (l : List (ℚ × ℚ)) :
    (l.map fun p => (a * p.2 - b) * (a * p.2 - b)).sum =
      a * a * (l.map fun p => p.2 * p.2).sum - 2 * a * b * (l.map fun p => p.2).sum
        + (l.length : ℚ) * (b * b) := by
  induction l with
  | nil => simp
  | cons p l ih =>
      simp only [List.map_cons, List.sum_cons, List.length_cons, ih]
      push_cast
      ring

/-- Cauchy-Schwarz for the centered sums: the squared numerator of the
correlation formula is at most its radicand, for any nonempty point list. -/
lemma corrNum_sq_le_corrDenSq (d : List (ℚ × ℚ)) (h : 1 ≤ d.length) :
    corrNum d ^ 2 ≤ corrDenSq d := by
  set n : ℚ := (d.length : ℚ) with hn
  set Sx : ℚ := (d.map fun p => p.1).sum with hSx
  set Sy : ℚ := (d.map fun p => p.2).sum with hSy
  have hnpos : 0 < n := by
    rw [hn]
    exact_mod_cast Nat.lt_of_lt_of_le Nat.zero_lt_one h
  -- Cauchy-Schwarz applied to the list of centered pairs (n·x − Sx, n·y − Sy).
  have hcs := list_cauchySchwarz (d.map fun p => (n * p.1 - Sx, n * p.2 - Sy))
  simp only [List.map_map, Function.comp_def] at hcs
  rw [sum_map_shift_mul n Sx n Sy d, sum_map_shift_sq_fst n Sx d,
      sum_map_shift_sq_snd n Sy d] at hcs
  rw [corrNum, corrDenSq, sumProd_eq, sumFst_eq, sumSnd_eq, sumFstSq_eq, sumSndSq_eq]
  rw [← hn, ← hSx, ← hSy] at hcs ⊢
  have hn2 : 0 < n * n := mul_pos hnpos hnpos
  nlinarith [hcs, hn2, hnpos]

/-! ## Concrete inputs used by examples, witnesses and counterexamples -/

/-- A Mangaroa record set with one pixel, years 2013..2024 and canopy cover
0..11 (the spec's synthetic trend scenario). -/
def trendExampleRecords : List MangaroaRecord :=
  [⟨0, 1, 2, 2013, 0, 0, 0, 0, 0⟩, ⟨0, 1, 2, 2014, 1, 0, 0, 0, 0⟩,
   ⟨0, 1, 2, 2015, 2, 0, 0, 0, 0⟩, ⟨0, 1, 2, 2016, 3, 0, 0, 0, 0⟩,
   ⟨0, 1, 2, 2017, 4, 0, 0, 0, 0⟩, ⟨0, 1, 2, 2018, 5, 0, 0, 0, 0⟩,
   ⟨0, 1, 2, 2019, 6, 0, 0, 0, 0⟩, ⟨0, 1, 2, 2020, 7, 0, 0, 0, 0⟩,
   ⟨0, 1, 2, 2021, 8, 0, 0, 0, 0⟩, ⟨0, 1, 2, 2022, 9, 0, 0, 0, 0⟩,
   ⟨0, 1, 2, 2023, 10, 0, 0, 0, 0⟩, ⟨0, 1, 2, 2024, 11, 0, 0, 0, 0⟩]

/-- A Mangaroa record of pixel 0 at the baseline year 2013, canopy cover 10. -/
def mrecBase2013 : MangaroaRecord := ⟨0, 1, 2, 2013, 10, 0, 0, 0, 0⟩

/-- A Mangaroa record of pixel 0 at year 2024, canopy cover 30. -/
def mrecCur2024 : MangaroaRecord := ⟨0, 1, 2, 2024, 30, 0, 0, 0, 0⟩

/-- A valid IO-9-class row holding class 11 for 2017-2022 and class 20 for
2023 (the spec's temporal-change scenario). -/
def ioExampleRow : IOClassRow := ⟨1, 2, 11, 11, 11, 11, 11, 11, 20⟩

/-- A normalized JRC forest-type data point (a non-Mangaroa dataset shape). -/
def jrcSamplePt : DataPoint := .jrcTypePt (canopyNormJRCTypeRow 0 ⟨1, 2, 0⟩)

/-- A valid GLAD data point. -/
def gladSamplePt : DataPoint := .gladPt (normGLADRow 0 ⟨1, 2, 1, 0, 0, 50⟩)

lemma jsOr0_some (v : ℚ) : jsOr0 (some v) = v := by
  by_cases h : v = 0 <;> simp [jsOr0, h]

/-! ## Claims -/

/-- C7: normalizing a forest-change row gives `forestLossYear = 2000 + lossyear`
exactly when `lossyear > 0` (absent otherwise), `hasForestGain` exactly when
`gain == 1`, validity exactly when `datamask == 1`; the row
`gain=1, lossyear=0, datamask=1` gives gain true, no loss year, valid. -/
theorem normGLADRow_spec (idx : ℕ) (row : GLADRow) :
    ((normGLADRow idx row).forest_loss_year =
        if row.lossyear > 0 then some (2000 + row.lossyear) else none)
    ∧ (∀ fy : ℤ, (normGLADRow idx row).forest_loss_year = some fy ↔
        row.lossyear > 0 ∧ fy = 2000 + row.lossyear)
    ∧ ((normGLADRow idx row).has_forest_gain = true ↔ row.gain = 1)
    ∧ ((normGLADRow idx row).has_data = true ↔ row.datamask = 1)
    ∧ ((normGLADRow 0 ⟨1, 2, 1, 1, 0, 75⟩).has_forest_gain = true
        ∧ (normGLADRow 0 ⟨1, 2, 1, 1, 0, 75⟩).forest_loss_year = none
        ∧ (normGLADRow 0 ⟨1, 2, 1, 1, 0, 75⟩).has_data = true) := by
  refine ⟨rfl, fun fy => ?_, by simp [normGLADRow], by simp [normGLADRow], by decide⟩
  by_cases h : row.lossyear > 0
  · simp [normGLADRow, h, eq_comm]
  · simp [normGLADRow, h]

/-- C10 counterexample: on the row with `forest_type_2020 = 1` the two JRC
forest-type normalizers disagree on `is_forest` (`=== 0` vs `=== 1`) while
both accept the row as data. -/
theorem jrcType_is_forest_disagreement :
    (canopyNormJRCTypeRow 0 ⟨1, 2, 1⟩).is_forest = false
    ∧ (multiNormJRCTypeRow 0 ⟨1, 2, 1⟩).is_forest = true
    ∧ (canopyNormJRCTypeRow 0 ⟨1, 2, 1⟩).has_data = true
    ∧ (multiNormJRCTypeRow 0 ⟨1, 2, 1⟩).has_data = true := by decide

/-- C10 (amended): the two JRC forest-type normalizers always agree on
`has_data` (both test `!== 255`), but agree on `is_forest` exactly for rows
whose value is neither 0 nor 1 — the CanopyCoverVisualizer variant marks
forest at value 0, the MultiDatasetVisualizer variant at value 1. -/
theorem jrcType_normalizers_agreement (idx : ℕ) (row : JRCTypeRow) :
    ((canopyNormJRCTypeRow idx row).has_data = (multiNormJRCTypeRow idx row).has_data)
    ∧ ((canopyNormJRCTypeRow idx row).is_forest = (multiNormJRCTypeRow idx row).is_forest ↔
        row.forest_type_2020 ≠ 0 ∧ row.forest_type_2020 ≠ 1) := by
  refine ⟨rfl, ?_⟩
  simp only [canopyNormJRCTypeRow, multiNormJRCTypeRow, decide_eq_decide]
  omega

/-- C8 counterexample: the CanopyCoverVisualizer loader for the same
multi-year-classification shape does not expand a valid row into 7 records;
it emits exactly one. -/
theorem canopyProcessIOClassData_no_expansion :
    ioExampleRow.class_2017 ≠ 255
    ∧ (canopyProcessIOClassData [ioExampleRow]).length = 1 := by decide

/-- C8 (amended): in MultiDatasetVisualizer, one valid
multi-year-classification row expands into exactly 7 records, one per
declared year 2017-2023, all sharing pixel id 0, carrying the full per-year
class map, with `dominantClass` the 2017 class and `hasTemporalChange` true
iff the declared years hold more than one distinct class; the spec's scenario
row gives 7 records with `hasTemporalChange` true and `dominantClass` 11.  In
CanopyCoverVisualizer the loader for this shape instead emits a single
unexpanded record per row. -/
theorem multiProcessIOClassData_expands_row (row : IOClassRow)
    (h : row.class_2017 ≠ 255) :
    (multiProcessIOClassData [row]).length = 7
    ∧ ((multiProcessIOClassData [row]).map fun e => e.year) = ioYears
    ∧ (∀ e ∈ multiProcessIOClassData [row],
        e.pixel_id = 0
        ∧ e.dominant_class = row.class_2017
        ∧ e.class_2017 = row.class_2017 ∧ e.class_2018 = row.class_2018
        ∧ e.class_2019 = row.class_2019 ∧ e.class_2020 = row.class_2020
        ∧ e.class_2021 = row.class_2021 ∧ e.class_2022 = row.class_2022
        ∧ e.class_2023 = row.class_2023
        ∧ (e.has_temporal_change = true ↔
            1 < (classValues (ioBaseRecord 0 row)).dedup.length))
    ∧ ((multiProcessIOClassData [ioExampleRow]).map fun e =>
        (e.has_temporal_change, e.dominant_class)) = List.replicate 7 (true, 11) := by
  have hbase : multiProcessIOClassData [row] = expandIOPixel (ioBaseRecord 0 row) := by
    simp [multiProcessIOClassData, ioBaseRecord, h]
  refine ⟨?_, ?_, ?_, by decide⟩
  · rw [hbase]; simp [expandIOPixel, ioYears]
  · rw [hbase]; simp [expandIOPixel, List.map_map, Function.comp_def]
  · intro e he
    rw [hbase] at he
    rcases List.mem_map.mp he with ⟨yr, _, rfl⟩
    refine ⟨rfl, rfl, rfl, rfl, rfl, rfl, rfl, rfl, rfl, ?_⟩
    simp [expandIOPixel, hasTemporalChange]

/-- C8 witness: the amended statement applied to the spec's scenario row. -/
theorem multiProcessIOClassData_expands_row_witness :
    (multiProcessIOClassData [ioExampleRow]).length = 7 :=
  (multiProcessIOClassData_expands_row ioExampleRow (by decide)).1

/-- C3 counterexample: `processGLADData` (MultiDatasetVisualizer lines
167-184) assigns `pixel_id` from the row position, so two records with equal
(rounded) coordinates receive distinct ids. -/
theorem processGLADData_same_coords_distinct_ids :
    ((processGLADData [⟨1, 2, 1, 0, 0, 50⟩, ⟨1, 2, 1, 0, 0, 50⟩]).map fun r =>
        r.pixel_id) = [0, 1]
    ∧ ((processGLADData [⟨1, 2, 1, 0, 0, 50⟩, ⟨1, 2, 1, 0, 0, 50⟩]).map fun r =>
        coordKey r.x r.y) = [coordKey 1 2, coordKey 1 2] := by
  constructor
  · decide
  · simp [processGLADData, normGLADRow, List.filter]

/-- C3 (amended): in the Mangaroa loaders the pixel-id pass assigns to every
record the id determined purely by its coordinate pair rounded to 6 decimal
places — the first-sighting position of that key — so any two records of one
load sharing a rounded coordinate share their `pixel_id`; the GLAD loader of
MultiDatasetVisualizer instead uses the row position as `pixel_id`, so there
records sharing a rounded coordinate can receive distinct ids. -/
theorem assignPixelIds_pure_function_of_rounded_coords (rs : List MangaroaRecord) :
    (assignPixelIds rs = rs.map fun r => { r with pixel_id := pixelIdOfKey rs (recKey r) })
    ∧ (∀ r ∈ assignPixelIds rs, ∀ s ∈ assignPixelIds rs,
        recKey r = recKey s → r.pixel_id = s.pixel_id) := by
  have hmain : assignPixelIds rs =
      rs.map fun r => { r with pixel_id := pixelIdOfKey rs (recKey r) } :=
    assignLoop_eq rs []
  refine ⟨hmain, ?_⟩
  intro r hr s hs hk
  rw [hmain] at hr hs
  rcases List.mem_map.mp hr with ⟨r0, _, rfl⟩
  rcases List.mem_map.mp hs with ⟨s0, _, rfl⟩
  have h1 : recKey { r0 with pixel_id := pixelIdOfKey rs (recKey r0) } = recKey r0 := rfl
  have h2 : recKey { s0 with pixel_id := pixelIdOfKey rs (recKey s0) } = recKey s0 := rfl
  rw [h1, h2] at hk
  show pixelIdOfKey rs (recKey r0) = pixelIdOfKey rs (recKey s0)
  rw [hk]

/-- C1 counterexample: a record set whose only pixel has a 2020 record and no
2013 record still produces an output entry in `change_from_baseline` mode —
with a fabricated baseline of 0 — instead of being excluded. -/
theorem changeFromBaseline_missing_baseline_not_skipped :
    (([⟨0, 1, 2, 2020, 5, 0, 0, 0, 0⟩] : List MangaroaRecord).filter fun d =>
        d.year = 2013) = []
    ∧ ((changeFromBaseline Metric.canopy_cover 2020
        [⟨0, 1, 2, 2020, 5, 0, 0, 0, 0⟩]).map fun e =>
        (e.base.pixel_id, e.change_value, e.baseline_value)) = [(0, 5, 0)] := by
  constructor
  · decide
  · norm_num [changeFromBaseline, metricValue, jsOr0, List.filter, List.find?]

/-- C1 (amended): in `change_from_baseline` mode every selected-year record
yields exactly one output entry whether or not the pixel has a baseline-year
(2013) record; entries whose pixel lacks a baseline record are zero-filled
(`|| 0`): `baseline_value = 0` and `change_value` equals the selected-year
metric value, rather than being excluded from the output. -/
theorem changeFromBaseline_zero_fill_policy (m : Metric) (y : ℤ)
    (rs : List MangaroaRecord) :
    ((changeFromBaseline m y rs).map ChangeEntry.base = rs.filter fun d => d.year = y)
    ∧ (∀ e ∈ changeFromBaseline m y rs,
        ((rs.filter fun d => d.year = 2013).find? fun b =>
            b.pixel_id = e.base.pixel_id) = none →
          e.baseline_value = 0 ∧ e.change_value = metricValue m e.base) := by
  constructor
  · simp [changeFromBaseline, Function.comp_def]
  · intro e he hnone
    simp only [changeFromBaseline] at he
    rcases List.mem_map.mp he with ⟨c, hc, rfl⟩
    simp only at hnone ⊢
    rw [hnone]
    simp [jsOr0]

/-- C5: for a pixel holding both a baseline-year (2013) record `b` and a
selected-year record `c`, the `change_from_baseline` output entry for `c` has
`change_value` exactly `metric(c) - metric(b)` and `baseline_value` exactly
`metric(b)`. -/
theorem changeFromBaseline_present_both_years_delta (m : Metric) (y : ℤ)
    (rs : List MangaroaRecord) (c b : MangaroaRecord)
    (hc : c ∈ rs.filter fun d => d.year = y)
    (hb : ((rs.filter fun d => d.year = 2013).find? fun r =>
        r.pixel_id = c.pixel_id) = some b) :
    ∃ e ∈ changeFromBaseline m y rs,
      e.base = c ∧ e.change_value = metricValue m c - metricValue m b
        ∧ e.baseline_value = metricValue m b := by
  simp only [changeFromBaseline]
  refine ⟨_, List.mem_map_of_mem _ hc, rfl, ?_, ?_⟩
  · simp only
    rw [hb, Option.map_some', jsOr0_some]
  · simp only
    rw [hb, Option.map_some', jsOr0_some]

/-- C5 witness: the theorem at a two-record set holding pixel 0 in 2013
(canopy 10) and 2024 (canopy 30). -/
theorem changeFromBaseline_present_both_years_delta_witness :
    ∃ e ∈ changeFromBaseline Metric.canopy_cover 2024 [mrecBase2013, mrecCur2024],
      e.base = mrecCur2024
        ∧ e.change_value = metricValue Metric.canopy_cover mrecCur2024 -
            metricValue Metric.canopy_cover mrecBase2013
        ∧ e.baseline_value = metricValue Metric.canopy_cover mrecBase2013 :=
  changeFromBaseline_present_both_years_delta Metric.canopy_cover 2024
    [mrecBase2013, mrecCur2024] mrecCur2024 mrecBase2013 (by decide) (by decide)

/-- C2 counterexample: requesting `trend_analysis` on the GLAD dataset — a
shape with no `year` field — returns the input records unchanged (a silent,
unfiltered pass-through) rather than failing with a configuration error. -/
theorem processVisualizationData_trend_on_glad_unfiltered :
    processVisualizationData DatasetKey.glad VisualizationMode.trend_analysis
      Metric.canopy_cover 2024 [gladSamplePt] = [gladSamplePt] := by decide

/-- C2 (amended): for every dataset other than the Mangaroa time series, all
three modes of `processVisualizationData` — including `change_from_baseline`
and `trend_analysis`, whose required fields such a shape lacks — silently
return the input records unchanged; no configuration error is reported. -/
theorem processVisualizationData_non_mangaroa_passthrough (ds : DatasetKey)
    (mode : VisualizationMode) (m : Metric) (y : ℤ) (data : List DataPoint)
    (h : ds ≠ DatasetKey.mangaroa) :
    processVisualizationData ds mode m y data = data := by
  cases data with
  | nil => cases mode <;> simp [processVisualizationData]
  | cons p ps => cases mode <;> simp [processVisualizationData, h]

/-- C2 witness: `change_from_baseline` on a JRC forest-type point passes it
through unchanged. -/
theorem processVisualizationData_non_mangaroa_passthrough_witness :
    processVisualizationData DatasetKey.jrc_type VisualizationMode.change_from_baseline
      Metric.canopy_cover 2024 [jrcSamplePt] = [jrcSamplePt] :=
  processVisualizationData_non_mangaroa_passthrough DatasetKey.jrc_type
    VisualizationMode.change_from_baseline Metric.canopy_cover 2024 [jrcSamplePt]
    (by decide)

lemma direction_cases (s : ℚ) :
    ((if s > 1/2 then TrendDirection.increasing
      else if s < -(1/2) then TrendDirection.decreasing else TrendDirection.stable) =
        TrendDirection.increasing ↔ 1/2 < s)
    ∧ ((if s > 1/2 then TrendDirection.increasing
      else if s < -(1/2) then TrendDirection.decreasing else TrendDirection.stable) =
        TrendDirection.decreasing ↔ s < -(1/2))
    ∧ ((if s > 1/2 then TrendDirection.increasing
      else if s < -(1/2) then TrendDirection.decreasing else TrendDirection.stable) =
        TrendDirection.stable ↔ ¬ 1/2 < s ∧ ¬ s < -(1/2)) := by
  by_cases h1 : s > 1/2
  · rw [if_pos h1]
    exact ⟨iff_of_true rfl h1, iff_of_false (by decide) (by intro hx; linarith),
      iff_of_false (by decide) (by intro hx; exact hx.1 h1)⟩
  · rw [if_neg h1]
    by_cases h2 : s < -(1/2)
    · rw [if_pos h2]
      exact ⟨iff_of_false (by decide) h1, iff_of_true rfl h2,
        iff_of_false (by decide) (by intro hx; exact hx.2 h2)⟩
    · rw [if_neg h2]
      exact ⟨iff_of_false (by decide) h1, iff_of_false (by decide) h2,
        iff_of_true rfl ⟨h1, h2⟩⟩

/-- C4: `trend_analysis` groups records by `pixel_id`; a group of fewer than
2 points yields no output entry, and every produced entry carries the OLS
slope `(n·Σxy − Σx·Σy) / (n·Σx² − (Σx)²)` of its (year, value) points, the
mean metric value, and the threshold classification (`> 0.5` increasing,
`< -0.5` decreasing, else stable); on the synthetic points (2013,0)..(2024,11)
the slope is exactly 1 with direction increasing. -/
theorem trendAnalysis_ols_spec (m : Metric) (rs : List MangaroaRecord) :
    (trendAnalysis m rs = (pixelGroups m rs).filterMap trendOfGroup)
    ∧ (∀ g : PixelTrend, g.years.length < 2 → trendOfGroup g = none)
    ∧ (∀ g t : PixelTrend, trendOfGroup g = some t →
        2 ≤ g.years.length
        ∧ t.trend_slope = olsSlope g.years g.values
        ∧ t.avg_value = g.values.sum / (g.years.length : ℚ)
        ∧ (t.trend_direction = TrendDirection.increasing ↔
            1/2 < olsSlope g.years g.values)
        ∧ (t.trend_direction = TrendDirection.decreasing ↔
            olsSlope g.years g.values < -(1/2))
        ∧ (t.trend_direction = TrendDirection.stable ↔
            ¬ 1/2 < olsSlope g.years g.values ∧ ¬ olsSlope g.years g.values < -(1/2)))
    ∧ ((trendAnalysis Metric.canopy_cover trendExampleRecords).map fun t =>
        (t.trend_slope, t.avg_value, t.trend_direction))
      = [(1, 11/2, TrendDirection.increasing)] := by
  refine ⟨rfl, ?_, ?_, by
    norm_num [trendExampleRecords, trendAnalysis, pixelGroups, addRecord, trendOfGroup,
      olsSlope, metricValue, List.filterMap]⟩
  · intro g hg
    simp [trendOfGroup, hg]
  · intro g t ht
    by_cases hlen : g.years.length < 2
    · simp [trendOfGroup, hlen] at ht
    · simp only [trendOfGroup, if_neg hlen] at ht
      obtain rfl : _ = t := Option.some.inj ht
      exact ⟨not_lt.mp hlen, rfl, rfl, (direction_cases _).1, (direction_cases _).2.1,
        (direction_cases _).2.2⟩

/-- C6: `calculateCorrelation` returns the guarded Pearson formula
`(nΣxy − ΣxΣy) / sqrt((nΣx² − (Σx)²)(nΣy² − (Σy)²))`, returns the defined
value 0 (not an error) when the radicand is zero or fewer than 2 points are
supplied, and gives 1 on `[1,2,3,4]` vs `[2,4,6,8]`, -1 on `[1,2,3,4]` vs
`[8,6,4,2]`, and 0 on a single point. -/
theorem calculateCorrelation_spec :
    (∀ d : List (ℚ × ℚ), d.length < 2 → calculateCorrelation d = 0)
    ∧ (∀ d : List (ℚ × ℚ), corrDenSq d = 0 → calculateCorrelation d = 0)
    ∧ (∀ d : List (ℚ × ℚ), ¬ d.length < 2 →
        Real.sqrt ((corrDenSq d : ℚ) : ℝ) ≠ 0 →
          calculateCorrelation d =
            ((corrNum d : ℚ) : ℝ) / Real.sqrt ((corrDenSq d : ℚ) : ℝ))
    ∧ calculateCorrelation [(1, 2), (2, 4), (3, 6), (4, 8)] = 1
    ∧ calculateCorrelation [(1, 8), (2, 6), (3, 4), (4, 2)] = -1
    ∧ calculateCorrelation [(1, 2)] = 0 := by
  refine ⟨?_, ?_, ?_, ?_, ?_, ?_⟩
  · intro d h
    simp [calculateCorrelation, h]
  · intro d h
    by_cases hl : d.length < 2
    · simp [calculateCorrelation, hl]
    · simp [calculateCorrelation, hl, h]
  · intro d h1 h2
    simp [calculateCorrelation, h1, h2]
  · have hnum : corrNum [((1:ℚ), (2:ℚ)), (2, 4), (3, 6), (4, 8)] = 40 := by
      norm_num [corrNum, sumProd, sumFst, sumSnd, List.foldl_cons, List.foldl_nil]
    have hden : corrDenSq [((1:ℚ), (2:ℚ)), (2, 4), (3, 6), (4, 8)] = 1600 := by
      norm_num [corrDenSq, sumFstSq, sumSndSq, sumFst, sumSnd,
        List.foldl_cons, List.foldl_nil]
    have hsqrt : Real.sqrt ((corrDenSq [((1:ℚ), (2:ℚ)), (2, 4), (3, 6), (4, 8)] : ℚ) : ℝ)
        = 40 := by
      rw [hden, show (((1600:ℚ):ℝ)) = 40^2 by norm_num,
        Real.sqrt_sq (by norm_num : (0:ℝ) ≤ 40)]
    unfold calculateCorrelation
    rw [if_neg (by decide), hsqrt, if_neg (by norm_num : (40:ℝ) ≠ 0), hnum]
    norm_num
  · have hnum : corrNum [((1:ℚ), (8:ℚ)), (2, 6), (3, 4), (4, 2)] = -40 := by
      norm_num [corrNum, sumProd, sumFst, sumSnd, List.foldl_cons, List.foldl_nil]
    have hden : corrDenSq [((1:ℚ), (8:ℚ)), (2, 6), (3, 4), (4, 2)] = 1600 := by
      norm_num [corrDenSq, sumFstSq, sumSndSq, sumFst, sumSnd,
        List.foldl_cons, List.foldl_nil]
    have hsqrt : Real.sqrt ((corrDenSq [((1:ℚ), (8:ℚ)), (2, 6), (3, 4), (4, 2)] : ℚ) : ℝ)
        = 40 := by
      rw [hden, show (((1600:ℚ):ℝ)) = 40^2 by norm_num,
        Real.sqrt_sq (by norm_num : (0:ℝ) ≤ 40)]
    unfold calculateCorrelation
    rw [if_neg (by decide), hsqrt, if_neg (by norm_num : (40:ℝ) ≠ 0), hnum]
    norm_num
  · simp [calculateCorrelation]

/-- C9: on every finite point list the guarded Pearson formula stays in
[-1, 1] — the Cauchy-Schwarz inequality bounds the numerator by the
square-root denominator, and the guarded cases return 0. -/
theorem calculateCorrelation_abs_le_one (d : List (ℚ × ℚ)) :
    |calculateCorrelation d| ≤ 1 := by
  unfold calculateCorrelation
  split_ifs with h1 h2
  · simp
  · simp
  · have hlen : 1 ≤ d.length := le_trans (by norm_num) (not_lt.mp h1)
    have hkey : corrNum d ^ 2 ≤ corrDenSq d := corrNum_sq_le_corrDenSq d hlen
    have hd0 : (0 : ℚ) ≤ corrDenSq d := le_trans (sq_nonneg _) hkey
    have hd0' : (0 : ℝ) ≤ ((corrDenSq d : ℚ) : ℝ) := by exact_mod_cast hd0
    have hsp : 0 < Real.sqrt ((corrDenSq d : ℚ) : ℝ) :=
      lt_of_le_of_ne (Real.sqrt_nonneg _) (Ne.symm h2)
    rw [abs_div, abs_of_pos hsp, div_le_one hsp, Real.le_sqrt (abs_nonneg _) hd0',
      sq_abs]
    exact_mod_cast hkey

end MangaroaAnalysis
